import Mathlib

/-!
Shallow embedding of the query-building, pagination, authorization and
serialization logic of a Node.js + PostgreSQL REST API (user and blog-post
CRUD).  Each definition mirrors one function of the JavaScript source:
`Post.findAll`'s dynamic WHERE-clause builder, `validatePagination`,
`User.create`, `User.toJSON` and the various controller handlers.
JavaScript runtime values that matter to control flow (truthiness of
strings, numbers, arrays, `undefined`, `null`, and `parseInt` returning
`NaN`) are modelled explicitly.
-/

namespace RestApi

/-- JavaScript runtime values as they occur in query strings, request
bodies and bound SQL parameter lists: `undef` is `undefined`, `num` an
integer number, `arr` an array of strings.  `NaN` is modelled separately
as `Option Int` where it arises (`parseInt`). -/
inductive JsVal where
  | jsUndefined
  | null
  | bool (b : Bool)
  | num (n : Int)
  | str (s : String)
  | arr (xs : List String)
deriving Repr, DecidableEq

/-- JavaScript truthiness: `undefined`, `null`, `false`, `0` and the empty
string are falsy; every other value (including the empty array) is truthy. -/
def truthy : JsVal → Bool
  | .jsUndefined => false
  | .null => false
  | .bool b => b
  | .num n => n != 0
  | .str s => s != ""
  | .arr _ => true

/-- Truthiness of an optional string (a query-string value that may be
absent): absent and empty are falsy. -/
def optTruthy : Option String → Bool
  | none => false
  | some s => s != ""

/-- Positional SQL placeholder `$k` as rendered into a query string. -/
def ph (k : Nat) : String := "$" ++ toString k

/-- `parseInt` on an optional string: skips leading whitespace, accepts an
optional sign, then reads a leading run of decimal digits; `none` models
`NaN` (no digits, or the argument was `undefined`). Trailing garbage after
the digits is ignored, as in JavaScript. -/
def jsParseInt (q : Option String) : Option Int :=
  match q with
  | none => none
  | some s =>
    let cs := s.toList.dropWhile (fun c => c = ' ' || c = '\t' || c = '\n')
    let (neg, rest) :=
      match cs with
      | '-' :: r => (true, r)
      | '+' :: r => (false, r)
      | r => (false, r)
    let digits := rest.takeWhile Char.isDigit
    if digits.isEmpty then none
    else
      let v : Int := digits.foldl (fun acc c => acc * 10 + (c.toNat - '0'.toNat)) 0
      some (if neg then -v else v)

/-! ## Post.findAll: dynamic WHERE clause construction (PostModel.js 111–194)

The source accumulates three parallel pieces of state while walking the
four optional filters in a fixed order: `whereConditions` (SQL fragments),
`queryParams` (bound values) and `paramCount` (the next placeholder
number, starting at 1).  Each condition fragment is recorded together with
the placeholder numbers it mentions, so that placeholder/parameter
alignment is a provable property of the build. -/

/-- The optional filters accepted by `Post.findAll`, as passed from
`PostController.getAllPosts`: each is a raw query-string value (possibly
absent), except `tags`, which the controller has already split on commas. -/
structure PostFilters where
  status : Option String
  author : Option String
  search : Option String
  tags : Option (List String)
deriving Repr, DecidableEq

/-- One pushed WHERE condition: its rendered SQL fragment and the
placeholder numbers occurring in it, in textual order. -/
structure Cond where
  sql : String
  holes : List Nat
deriving Repr, DecidableEq

/-- Builder state: `whereConditions`, `queryParams` and `paramCount`
exactly as in the source (`paramCount` starts at 1). -/
structure BuildSt where
  whereConditions : List Cond
  queryParams : List JsVal
  paramCount : Nat
deriving Repr, DecidableEq

/-- One iteration of the source's push pattern: push the condition, push
its bound value, increment `paramCount`. -/
def pushCond (st : BuildSt) (c : Cond) (v : JsVal) : BuildSt :=
  { whereConditions := st.whereConditions ++ [c]
    queryParams := st.queryParams ++ [v]
    paramCount := st.paramCount + 1 }

/-- `if (filters.status) { push "p.status = $n"; push status }`. -/
def statusCond (f : PostFilters) (st : BuildSt) : BuildSt :=
  match f.status with
  | some s =>
    if s != "" then
      pushCond st ⟨"p.status = " ++ ph st.paramCount, [st.paramCount]⟩ (.str s)
    else st
  | none => st

/-- `if (filters.author) { push "u.username ILIKE $n"; push `%author%` }`. -/
def authorCond (f : PostFilters) (st : BuildSt) : BuildSt :=
  match f.author with
  | some a =>
    if a != "" then
      pushCond st ⟨"u.username ILIKE " ++ ph st.paramCount, [st.paramCount]⟩
        (.str ("%" ++ a ++ "%"))
    else st
  | none => st

/-- `if (filters.search) { push "(p.title ILIKE $n OR p.content ILIKE $n)";
push `%search%` }` — one parenthesized OR group, the same placeholder
number used for both columns, one pushed value. -/
def searchCond (f : PostFilters) (st : BuildSt) : BuildSt :=
  match f.search with
  | some q =>
    if q != "" then
      pushCond st
        ⟨"(p.title ILIKE " ++ ph st.paramCount ++ " OR p.content ILIKE " ++
            ph st.paramCount ++ ")",
          [st.paramCount, st.paramCount]⟩
        (.str ("%" ++ q ++ "%"))
    else st
  | none => st

/-- `if (filters.tags && filters.tags.length > 0) { push "p.tags && $n";
push tags }`. -/
def tagsCond (f : PostFilters) (st : BuildSt) : BuildSt :=
  match f.tags with
  | some ts =>
    if ts.length > 0 then
      pushCond st ⟨"p.tags && " ++ ph st.paramCount, [st.paramCount]⟩ (.arr ts)
    else st
  | none => st

/-- The full dynamic build of `Post.findAll`'s WHERE state: the four
filters are examined in source order (status, author, search, tags). -/
def postFindAllWhere (f : PostFilters) : BuildSt :=
  tagsCond f (searchCond f (authorCond f (statusCond f ⟨[], [], 1⟩)))

/-- The rendered WHERE clause: `WHERE c1 AND c2 AND ...`, or the empty
string when no condition was pushed. -/
def whereClauseStr (st : BuildSt) : String :=
  if st.whereConditions.length > 0 then
    "WHERE " ++ String.intercalate " AND " (st.whereConditions.map Cond.sql)
  else ""

/-- The row-fetch query: SELECT + join + WHERE clause + ORDER BY + LIMIT
`$paramCount` OFFSET `$paramCount+1`. -/
def postFindAllRowQuery (f : PostFilters) : String :=
  let st := postFindAllWhere f
  "SELECT p.*, u.username, u.first_name, u.last_name, u.avatar_url " ++
    "FROM posts p JOIN users u ON p.author_id = u.id " ++
    whereClauseStr st ++ " ORDER BY p.created_at DESC LIMIT " ++
    ph st.paramCount ++ " OFFSET " ++ ph (st.paramCount + 1)

/-- The count query: same FROM/JOIN and the same WHERE clause, no
LIMIT/OFFSET. -/
def postFindAllCountQuery (f : PostFilters) : String :=
  "SELECT COUNT(*) FROM posts p JOIN users u ON p.author_id = u.id " ++
    whereClauseStr (postFindAllWhere f)

/-- The parameter list passed with the row-fetch query:
`queryParams.push(limit, offset)` with `offset = (page - 1) * limit`. -/
def postFindAllRowParams (f : PostFilters) (page limit : Int) : List JsVal :=
  (postFindAllWhere f).queryParams ++ [.num limit, .num ((page - 1) * limit)]

/-- The parameter list passed with the count query:
`queryParams.slice(0, -2)` — the row parameters without their last two
entries. -/
def postFindAllCountParams (f : PostFilters) (page limit : Int) : List JsVal :=
  ((postFindAllRowParams f page limit).dropLast).dropLast

/-- All placeholder numbers mentioned by a condition list, in order. -/
def condHoles (cs : List Cond) : List Nat := (cs.map Cond.holes).flatten

example : postFindAllWhere ⟨some "published", none, some "x", none⟩ =
    ⟨[⟨"p.status = $1", [1]⟩,
      ⟨"(p.title ILIKE $2 OR p.content ILIKE $2)", [2, 2]⟩],
      [.str "published", .str "%x%"], 3⟩ := by decide

example : postFindAllCountParams ⟨some "d", none, none, none⟩ 2 10 =
    [.str "d"] := by decide

lemma pushCond_whereConditions (st : BuildSt) (c : Cond) (v : JsVal) :
    (pushCond st c v).whereConditions = st.whereConditions ++ [c] := rfl

lemma pushCond_queryParams (st : BuildSt) (c : Cond) (v : JsVal) :
    (pushCond st c v).queryParams = st.queryParams ++ [v] := rfl

lemma pushCond_paramCount (st : BuildSt) (c : Cond) (v : JsVal) :
    (pushCond st c v).paramCount = st.paramCount + 1 := rfl

lemma condHoles_append (cs : List Cond) (c : Cond) :
    condHoles (cs ++ [c]) = condHoles cs ++ c.holes := by
  simp [condHoles]

/-- Placeholder/parameter alignment: `paramCount` runs exactly one ahead
of the parameter list; every placeholder number mentioned in the WHERE
conditions addresses a position of the parameter list; and every parameter
position is addressed by some placeholder. -/
def Aligned (st : BuildSt) : Prop :=
  st.paramCount = st.queryParams.length + 1 ∧
  (∀ k ∈ condHoles st.whereConditions, 1 ≤ k ∧ k ≤ st.queryParams.length) ∧
  (∀ k, 1 ≤ k → k ≤ st.queryParams.length → k ∈ condHoles st.whereConditions)

lemma aligned_init : Aligned ⟨[], [], 1⟩ := by
  refine ⟨rfl, ?_, ?_⟩
  · intro k hk
    simp [condHoles] at hk
  · intro k hk1 hk2
    simp at hk2
    omega

lemma aligned_pushCond {st : BuildSt} (hst : Aligned st) (c : Cond) (v : JsVal)
    (hc : ∀ k ∈ c.holes, k = st.paramCount) (hne : c.holes ≠ []) :
    Aligned (pushCond st c v) := by
  obtain ⟨h1, h2, h3⟩ := hst
  refine ⟨?_, ?_, ?_⟩
  · simp [pushCond_paramCount, pushCond_queryParams, h1]
  · intro k hk
    rw [pushCond_whereConditions, condHoles_append, List.mem_append] at hk
    rw [pushCond_queryParams, List.length_append, List.length_singleton]
    rcases hk with hk | hk
    · have := h2 k hk
      omega
    · have := hc k hk
      omega
  · intro k hk1 hk2
    rw [pushCond_queryParams, List.length_append] at hk2
    rw [pushCond_whereConditions, condHoles_append, List.mem_append]
    by_cases hle : k ≤ st.queryParams.length
    · exact Or.inl (h3 k hk1 hle)
    · right
      obtain ⟨k₀, hk₀⟩ := List.exists_mem_of_ne_nil c.holes hne
      have hk₀' := hc k₀ hk₀
      have : k = st.paramCount := by simp at hk2; omega
      rw [this, ← hk₀']
      exact hk₀

/-- The condition shape `c` is present with some placeholder number `k`
whose parameter slot (position `k`, 1-based) holds exactly the value `v`. -/
def HoldsParam (st : BuildSt) (c : Nat → Cond) (v : JsVal) : Prop :=
  ∃ k, 1 ≤ k ∧ c k ∈ st.whereConditions ∧ st.queryParams[k - 1]? = some v

lemma holdsParam_pushCond {st : BuildSt} {c : Nat → Cond} {v : JsVal}
    (c' : Cond) (v' : JsVal) (h : HoldsParam st c v) :
    HoldsParam (pushCond st c' v') c v := by
  obtain ⟨k, hk1, hmem, hget⟩ := h
  have hlt : k - 1 < st.queryParams.length := (List.getElem?_eq_some.mp hget).1
  refine ⟨k, hk1, ?_, ?_⟩
  · rw [pushCond_whereConditions]
    exact List.mem_append.mpr (Or.inl hmem)
  · rw [pushCond_queryParams, List.getElem?_append_left hlt]
    exact hget

lemma holdsParam_establish {st : BuildSt} (hst : Aligned st) (c : Nat → Cond)
    (v : JsVal) :
    HoldsParam (pushCond st (c st.paramCount) v) c v := by
  refine ⟨st.paramCount, by rw [hst.1]; omega, ?_, ?_⟩
  · rw [pushCond_whereConditions]
    exact List.mem_append.mpr (Or.inr (List.mem_singleton.mpr rfl))
  · rw [pushCond_queryParams, hst.1]
    simp

/-! Preservation and establishment through the four filter steps. -/

lemma aligned_statusCond (f : PostFilters) {st : BuildSt} (h : Aligned st) :
    Aligned (statusCond f st) := by
  unfold statusCond
  cases hs : f.status with
  | none => exact h
  | some s =>
    by_cases hne : s = ""
    · simp [hne]
      exact h
    · simp [hne]
      exact aligned_pushCond h _ _ (by intro k hk; simpa using hk) (by simp)

lemma aligned_authorCond (f : PostFilters) {st : BuildSt} (h : Aligned st) :
    Aligned (authorCond f st) := by
  unfold authorCond
  cases hs : f.author with
  | none => exact h
  | some a =>
    by_cases hne : a = ""
    · simp [hne]
      exact h
    · simp [hne]
      exact aligned_pushCond h _ _ (by intro k hk; simpa using hk) (by simp)

lemma aligned_searchCond (f : PostFilters) {st : BuildSt} (h : Aligned st) :
    Aligned (searchCond f st) := by
  unfold searchCond
  cases hs : f.search with
  | none => exact h
  | some q =>
    by_cases hne : q = ""
    · simp [hne]
      exact h
    · simp [hne]
      exact aligned_pushCond h _ _ (by intro k hk; simpa using hk) (by simp)

lemma aligned_tagsCond (f : PostFilters) {st : BuildSt} (h : Aligned st) :
    Aligned (tagsCond f st) := by
  unfold tagsCond
  cases hs : f.tags with
  | none => exact h
  | some ts =>
    by_cases hne : ts.length > 0
    · simp [hne]
      exact aligned_pushCond h _ _ (by intro k hk; simpa using hk) (by simp)
    · simp [hne]
      exact h

lemma holdsParam_statusCond (f : PostFilters) {st : BuildSt} {c : Nat → Cond}
    {v : JsVal} (h : HoldsParam st c v) : HoldsParam (statusCond f st) c v := by
  unfold statusCond
  cases f.status with
  | none => exact h
  | some s =>
    by_cases hne : s = ""
    · simp [hne]; exact h
    · simp [hne]; exact holdsParam_pushCond _ _ h

lemma holdsParam_authorCond (f : PostFilters) {st : BuildSt} {c : Nat → Cond}
    {v : JsVal} (h : HoldsParam st c v) : HoldsParam (authorCond f st) c v := by
  unfold authorCond
  cases f.author with
  | none => exact h
  | some a =>
    by_cases hne : a = ""
    · simp [hne]; exact h
    · simp [hne]; exact holdsParam_pushCond _ _ h

lemma holdsParam_searchCond (f : PostFilters) {st : BuildSt} {c : Nat → Cond}
    {v : JsVal} (h : HoldsParam st c v) : HoldsParam (searchCond f st) c v := by
  unfold searchCond
  cases f.search with
  | none => exact h
  | some q =>
    by_cases hne : q = ""
    · simp [hne]; exact h
    · simp [hne]; exact holdsParam_pushCond _ _ h

lemma holdsParam_tagsCond (f : PostFilters) {st : BuildSt} {c : Nat → Cond}
    {v : JsVal} (h : HoldsParam st c v) : HoldsParam (tagsCond f st) c v := by
  unfold tagsCond
  cases f.tags with
  | none => exact h
  | some ts =>
    by_cases hne : ts.length > 0
    · simp [hne]; exact holdsParam_pushCond _ _ h
    · simp [hne]; exact h

lemma statusCond_establish (f : PostFilters) {st : BuildSt} (h : Aligned st)
    {s : String} (hs : f.status = some s) (hne : s ≠ "") :
    HoldsParam (statusCond f st) (fun k => ⟨"p.status = " ++ ph k, [k]⟩)
      (.str s) := by
  unfold statusCond
  rw [hs]
  simp [hne]
  exact holdsParam_establish h _ _

lemma authorCond_establish (f : PostFilters) {st : BuildSt} (h : Aligned st)
    {a : String} (ha : f.author = some a) (hne : a ≠ "") :
    HoldsParam (authorCond f st) (fun k => ⟨"u.username ILIKE " ++ ph k, [k]⟩)
      (.str ("%" ++ a ++ "%")) := by
  unfold authorCond
  rw [ha]
  simp [hne]
  exact holdsParam_establish h _ _

lemma searchCond_establish (f : PostFilters) {st : BuildSt} (h : Aligned st)
    {q : String} (hq : f.search = some q) (hne : q ≠ "") :
    HoldsParam (searchCond f st)
      (fun k => ⟨"(p.title ILIKE " ++ ph k ++ " OR p.content ILIKE " ++
        ph k ++ ")", [k, k]⟩)
      (.str ("%" ++ q ++ "%")) := by
  unfold searchCond
  rw [hq]
  simp [hne]
  exact holdsParam_establish h _ _

lemma tagsCond_establish (f : PostFilters) {st : BuildSt} (h : Aligned st)
    {ts : List String} (ht : f.tags = some ts) (hne : ts.length > 0) :
    HoldsParam (tagsCond f st) (fun k => ⟨"p.tags && " ++ ph k, [k]⟩)
      (.arr ts) := by
  unfold tagsCond
  rw [ht]
  simp [hne]
  exact holdsParam_establish h _ _

lemma aligned_postFindAllWhere (f : PostFilters) :
    Aligned (postFindAllWhere f) :=
  aligned_tagsCond f (aligned_searchCond f (aligned_authorCond f
    (aligned_statusCond f aligned_init)))

lemma dropLast_two (l : List JsVal) (a b : JsVal) :
    ((l ++ [a, b]).dropLast).dropLast = l := by
  rw [show l ++ [a, b] = (l ++ [a]) ++ [b] by simp,
    List.dropLast_concat, List.dropLast_concat]

/-- C1: in `Post.findAll`'s predicate builder, for every combination of
present/absent filters, every placeholder number `$k` appearing in the
generated WHERE conditions addresses position `k` of the bound-value list
and every position is addressed; each present filter's condition is bound
to precisely that filter's (pattern-wrapped) value at its own placeholder
position; the count query runs with exactly the row-fetch parameter list
minus the trailing LIMIT and OFFSET values, which are appended only to
the row-fetch parameters. -/
theorem postFindAll_placeholder_param_correspondence
    (f : PostFilters) (page limit : Int) :
    postFindAllCountParams f page limit = (postFindAllWhere f).queryParams ∧
    postFindAllRowParams f page limit =
      (postFindAllWhere f).queryParams ++
        [.num limit, .num ((page - 1) * limit)] ∧
    (postFindAllWhere f).paramCount =
      (postFindAllWhere f).queryParams.length + 1 ∧
    (∀ k ∈ condHoles (postFindAllWhere f).whereConditions,
      1 ≤ k ∧ k ≤ (postFindAllWhere f).queryParams.length) ∧
    (∀ k, 1 ≤ k → k ≤ (postFindAllWhere f).queryParams.length →
      k ∈ condHoles (postFindAllWhere f).whereConditions) ∧
    (∀ s, f.status = some s → s ≠ "" →
      HoldsParam (postFindAllWhere f)
        (fun k => ⟨"p.status = " ++ ph k, [k]⟩) (.str s)) ∧
    (∀ a, f.author = some a → a ≠ "" →
      HoldsParam (postFindAllWhere f)
        (fun k => ⟨"u.username ILIKE " ++ ph k, [k]⟩)
        (.str ("%" ++ a ++ "%"))) ∧
    (∀ q, f.search = some q → q ≠ "" →
      HoldsParam (postFindAllWhere f)
        (fun k => ⟨"(p.title ILIKE " ++ ph k ++ " OR p.content ILIKE " ++
          ph k ++ ")", [k, k]⟩)
        (.str ("%" ++ q ++ "%"))) ∧
    (∀ ts, f.tags = some ts → ts.length > 0 →
      HoldsParam (postFindAllWhere f)
        (fun k => ⟨"p.tags && " ++ ph k, [k]⟩) (.arr ts)) := by
  have hA := aligned_postFindAllWhere f
  refine ⟨?_, rfl, hA.1, hA.2.1, hA.2.2, ?_, ?_, ?_, ?_⟩
  · unfold postFindAllCountParams postFindAllRowParams
    exact dropLast_two _ _ _
  · intro s hs hne
    exact holdsParam_tagsCond f (holdsParam_searchCond f (holdsParam_authorCond f
      (statusCond_establish f aligned_init hs hne)))
  · intro a ha hne
    exact holdsParam_tagsCond f (holdsParam_searchCond f
      (authorCond_establish f (aligned_statusCond f aligned_init) ha hne))
  · intro q hq hne
    exact holdsParam_tagsCond f
      (searchCond_establish f
        (aligned_authorCond f (aligned_statusCond f aligned_init)) hq hne)
  · intro ts ht hne
    exact tagsCond_establish f
      (aligned_searchCond f (aligned_authorCond f
        (aligned_statusCond f aligned_init))) ht hne

/-- Witness for C1 at a fully concrete input: all four filters present,
page 2, limit 5. -/
theorem postFindAll_placeholder_param_correspondence_witness :
    HoldsParam (postFindAllWhere ⟨some "published", some "ali", some "x", some ["t"]⟩)
      (fun k => ⟨"p.status = " ++ ph k, [k]⟩) (.str "published") ∧
    postFindAllCountParams ⟨some "published", some "ali", some "x", some ["t"]⟩ 2 5 =
      (postFindAllWhere ⟨some "published", some "ali", some "x", some ["t"]⟩).queryParams := by
  have h := postFindAll_placeholder_param_correspondence
    ⟨some "published", some "ali", some "x", some ["t"]⟩ 2 5
  exact ⟨h.2.2.2.2.2.1 "published" rfl (by decide), h.1⟩

lemma tagsCond_params_length_succ (f : PostFilters) (st st' : BuildSt)
    (h : st.queryParams.length = st'.queryParams.length + 1) :
    (tagsCond f st).queryParams.length =
      (tagsCond f st').queryParams.length + 1 := by
  unfold tagsCond
  cases f.tags with
  | none => exact h
  | some ts =>
    by_cases hne : ts.length > 0
    · simp [hne, pushCond_queryParams]
      omega
    · simp [hne]
      exact h

/-- C8 (corrected): with a free-text search filter present, the generated
condition is the parenthesized OR group over title and content, both
columns reusing the same positional placeholder, bound to the single
pattern-wrapped search value; the bound-parameter list grows by exactly
one entry in total (not one per searched column). -/
theorem search_group_parenthesized_single_param (f : PostFilters)
    (q : String) (hq : f.search = some q) (hne : q ≠ "") :
    HoldsParam (postFindAllWhere f)
      (fun k => ⟨"(p.title ILIKE " ++ ph k ++ " OR p.content ILIKE " ++
        ph k ++ ")", [k, k]⟩)
      (.str ("%" ++ q ++ "%")) ∧
    (postFindAllWhere f).queryParams.length =
      (postFindAllWhere { f with search := none }).queryParams.length + 1 := by
  constructor
  · exact holdsParam_tagsCond f
      (searchCond_establish f
        (aligned_authorCond f (aligned_statusCond f aligned_init)) hq hne)
  · have heq : postFindAllWhere { f with search := none } =
        tagsCond f (authorCond f (statusCond f ⟨[], [], 1⟩)) := rfl
    rw [heq]
    unfold postFindAllWhere
    apply tagsCond_params_length_succ
    unfold searchCond
    rw [hq]
    simp [hne, pushCond_queryParams]

/-- Counterexample to C8 as stated: with only the search filter present,
two columns (title, content) are searched, yet the bound-parameter list
gains a single entry, not one entry per searched column. -/
theorem search_params_single_entry_cex :
    (postFindAllWhere ⟨none, none, some "x", none⟩).queryParams =
      [.str "%x%"] ∧
    (postFindAllWhere ⟨none, none, some "x", none⟩).queryParams.length ≠ 2 := by
  decide

/-- Witness for C8's amended theorem at a concrete input. -/
theorem search_group_parenthesized_single_param_witness :
    HoldsParam (postFindAllWhere ⟨some "draft", none, some "db", none⟩)
      (fun k => ⟨"(p.title ILIKE " ++ ph k ++ " OR p.content ILIKE " ++
        ph k ++ ")", [k, k]⟩)
      (.str "%db%") ∧
    (postFindAllWhere ⟨some "draft", none, some "db", none⟩).queryParams.length =
      (postFindAllWhere ⟨some "draft", none, none, none⟩).queryParams.length + 1 := by
  have h := search_group_parenthesized_single_param
    ⟨some "draft", none, some "db", none⟩ "db" rfl (by decide)
  exact h

/-! ## validatePagination (middleware/validation.js 106–125)

`const page = parseInt(req.query.page)` followed by
`if (page && (isNaN(page) || page < 1))` — note that a `NaN` or `0`
result is falsy, so the guard body is skipped for those values. -/

/-- Outcome of a middleware: a rejection response, or `next()`. -/
inductive MiddlewareResult where
  | reject (status : Nat) (message : String)
  | next
deriving Repr, DecidableEq

/-- Numeric truthiness of a `parseInt` result: `NaN` and `0` are falsy. -/
def numTruthy : Option Int → Bool
  | none => false
  | some n => n != 0

/-- `isNaN` on a `parseInt` result. -/
def numIsNaN : Option Int → Bool
  | none => true
  | some _ => false

/-- `x < c` on a `parseInt` result; any comparison with `NaN` is false. -/
def numLt (x : Option Int) (c : Int) : Bool :=
  match x with
  | none => false
  | some n => n < c

/-- `x > c` on a `parseInt` result; any comparison with `NaN` is false. -/
def numGt (x : Option Int) (c : Int) : Bool :=
  match x with
  | none => false
  | some n => n > c

/-- `validatePagination`: parse both query values, reject the page when
`page && (isNaN(page) || page < 1)`, then the limit when
`limit && (isNaN(limit) || limit < 1 || limit > 100)`, else `next()`. -/
def validatePagination (pageQ limitQ : Option String) : MiddlewareResult :=
  let page := jsParseInt pageQ
  let limit := jsParseInt limitQ
  if numTruthy page && (numIsNaN page || numLt page 1) then
    .reject 400 "Page must be a positive integer"
  else if numTruthy limit &&
      (numIsNaN limit || numLt limit 1 || numGt limit 100) then
    .reject 400 "Limit must be between 1 and 100"
  else
    .next

/-- `parseInt(q) || d`: the controllers' silent defaulting of page/limit
(`PostController.getAllPosts`, `UserController.getAllUsers`). -/
def jsParseIntOr (q : Option String) (d : Int) : Int :=
  match jsParseInt q with
  | none => d
  | some n => if n != 0 then n else d

/-- C2 (code bug): a present but non-numeric `page` or `limit`, and the
out-of-range value `0`, pass validation silently (`parseInt` yields `NaN`
or `0`, both falsy, so the guard — whose `isNaN` disjunct is thereby
unreachable — is skipped) and are then silently defaulted by the
controllers, while negative pages and limits above 100 are rejected as
the claim describes. -/
theorem validatePagination_accepts_invalid_page_and_limit :
    validatePagination (some "abc") none = .next ∧
    validatePagination (some "0") none = .next ∧
    validatePagination none (some "abc") = .next ∧
    validatePagination none (some "0") = .next ∧
    jsParseIntOr (some "abc") 1 = 1 ∧
    jsParseIntOr (some "0") 1 = 1 ∧
    validatePagination (some "-2") none =
      .reject 400 "Page must be a positive integer" ∧
    validatePagination none (some "101") =
      .reject 400 "Limit must be between 1 and 100" := by
  decide

/-! ## User.create (UserModel.js 19–44) -/

/-- The fields destructured from `userData` by `User.create`. -/
structure UserCreateData where
  username : String
  email : String
  password : String
  firstName : Option String
  lastName : Option String
deriving Repr, DecidableEq

/-- An INSERT statement: its column list and bound values in order. -/
structure InsertStmt where
  columns : List String
  values : List JsVal
deriving Repr, DecidableEq

/-- An optional (possibly `undefined`) string field as a bound value. -/
def optStrVal : Option String → JsVal
  | some s => .str s
  | none => .jsUndefined

/-- `User.create`: generates a salt, computes
`hashedPassword = bcrypt.hash(password, salt)` and binds the **hashed**
password as the third INSERT value.  `bcryptHash` abstracts
`bcrypt.hash(·, salt)` at the generated salt. -/
def userCreate (bcryptHash : String → String) (d : UserCreateData) :
    InsertStmt :=
  { columns := ["username", "email", "password", "first_name", "last_name"]
    values := [.str d.username, .str d.email, .str (bcryptHash d.password),
      optStrVal d.firstName, optStrVal d.lastName] }

/-- The password value an insert stores (position of the `password`
column, the third). -/
def storedPassword (ins : InsertStmt) : Option JsVal := ins.values[2]?

/-- Model of `bcrypt.hash` at a fixed salt: a real bcrypt digest is a
modular-crypt-format string carrying the `$2b$` algorithm tag and cost,
so it is never the plaintext it was derived from; the model keeps exactly
that property. -/
def bcryptHashModel (s : String) : String := "$2b$10$" ++ s

/-- Counterexample to C3: `User.create` called with password `"Passw0rd"`
stores the bcrypt digest, not the received value — the repository itself
hashes. -/
theorem userCreate_stores_hash_not_plaintext_cex :
    storedPassword (userCreate bcryptHashModel
      ⟨"alice", "a@x.com", "Passw0rd", none, none⟩) =
      some (.str "$2b$10$Passw0rd") ∧
    storedPassword (userCreate bcryptHashModel
      ⟨"alice", "a@x.com", "Passw0rd", none, none⟩) ≠
      some (.str "Passw0rd") := by
  decide

/-- C3 (corrected): for every call to `User.create`, the password value
stored is the bcrypt hash of the received password (and the remaining
fields are bound untransformed) — the repository hashes, it does not
store the received value. -/
theorem userCreate_stores_bcrypt_hash (bcryptHash : String → String)
    (d : UserCreateData) :
    storedPassword (userCreate bcryptHash d) =
      some (.str (bcryptHash d.password)) ∧
    (userCreate bcryptHash d).values =
      [.str d.username, .str d.email, .str (bcryptHash d.password),
        optStrVal d.firstName, optStrVal d.lastName] :=
  ⟨rfl, rfl⟩

/-! ## User serialization (UserModel.js 4–16, 179–182; controllers) -/

/-- Property access `row["col"]` on a result row: `undefined` (`none`)
when the column is absent from the row. -/
def rowGet (row : List (String × JsVal)) (k : String) : Option JsVal :=
  match row with
  | [] => none
  | (k', v) :: rest => if k' = k then some v else rowGet rest k

/-- A `User` instance as built by the constructor: each field holds the
row's value at the corresponding snake_case column, or `undefined`
(`none`) when that column was not part of the row. -/
structure UserObj where
  id : Option JsVal
  username : Option JsVal
  email : Option JsVal
  password : Option JsVal
  firstName : Option JsVal
  lastName : Option JsVal
  avatarUrl : Option JsVal
  isActive : Option JsVal
  createdAt : Option JsVal
  updatedAt : Option JsVal
deriving Repr, DecidableEq

/-- `new User(row)` (UserModel.js 4–16). -/
def constructUser (row : List (String × JsVal)) : UserObj :=
  { id := rowGet row "id"
    username := rowGet row "username"
    email := rowGet row "email"
    password := rowGet row "password"
    firstName := rowGet row "first_name"
    lastName := rowGet row "last_name"
    avatarUrl := rowGet row "avatar_url"
    isActive := rowGet row "is_active"
    createdAt := rowGet row "created_at"
    updatedAt := rowGet row "updated_at" }

/-- The JSON key a field contributes when serialized: `JSON.stringify`
drops properties holding `undefined`. -/
def keyIf (k : String) (v : Option JsVal) : List String :=
  match v with
  | some _ => [k]
  | none => []

/-- The keys present when a `User` object is serialized directly into a
response payload (e.g. `res.json({ user })`), in property order. -/
def userJsonKeys (u : UserObj) : List String :=
  keyIf "id" u.id ++ keyIf "username" u.username ++ keyIf "email" u.email ++
    keyIf "password" u.password ++ keyIf "firstName" u.firstName ++
    keyIf "lastName" u.lastName ++ keyIf "avatarUrl" u.avatarUrl ++
    keyIf "isActive" u.isActive ++ keyIf "createdAt" u.createdAt ++
    keyIf "updatedAt" u.updatedAt

/-- `toJSON()` (UserModel.js 179–182):
`const { password, ...userWithoutPassword } = this` — serialization of
every property except `password`. -/
def toJSONKeys (u : UserObj) : List String :=
  userJsonKeys { u with password := none }

/-- Column list of `User.findAll`'s SELECT (UserModel.js 87–93): the
`password` column is not selected, so listed users carry
`password = undefined`. -/
def userFindAllColumns : List String :=
  ["id", "username", "email", "first_name", "last_name", "avatar_url",
    "created_at"]

/-- Legacy `userController.registerUser` (userController.js 5–16):
`res.status(201).json({ user })` — the `User` object is serialized
directly, without `toJSON`. -/
def legacyRegisterPayloadKeys (u : UserObj) : List String := userJsonKeys u

lemma mem_keyIf_iff (k' k : String) (v : Option JsVal) :
    k' ∈ keyIf k v ↔ (k' = k ∧ v.isSome = true) := by
  cases v <;> simp [keyIf]

lemma rowGet_eq_none (row : List (String × JsVal)) (k : String)
    (h : ∀ kv ∈ row, kv.1 ≠ k) : rowGet row k = none := by
  induction row with
  | nil => rfl
  | cons kv rest ih =>
    have h1 := h kv (by simp)
    rw [show kv = (kv.1, kv.2) from rfl, rowGet]
    simp [h1]
    exact ih (fun kv' hm => h kv' (by simp [hm]))

/-- Counterexample to C4: the legacy registration path serializes the row
returned by `INSERT ... RETURNING *` without stripping, so its payload
contains the password hash — while `toJSON` of the same user does not. -/
theorem legacyRegister_payload_contains_password_cex :
    "password" ∈ legacyRegisterPayloadKeys (constructUser
      [("id", .num 1), ("username", .str "alice"),
        ("email", .str "a@x.com"), ("password", .str "$2b$10$h"),
        ("is_active", .bool true)]) ∧
    "password" ∉ toJSONKeys (constructUser
      [("id", .num 1), ("username", .str "alice"),
        ("email", .str "a@x.com"), ("password", .str "$2b$10$h"),
        ("is_active", .bool true)]) := by
  decide

/-- C4 (corrected): every serialization that goes through `toJSON`
(registration and login via `AuthController`, profile fetch/update, user
fetch by id) excludes the password key for every user object, and the
user-listing path excludes it because `User.findAll` never selects the
password column; only the legacy `registerUser` serialization can expose
it. -/
theorem user_serialization_password_excluded (u : UserObj)
    (row : List (String × JsVal))
    (hrow : ∀ kv ∈ row, kv.1 ∈ userFindAllColumns) :
    "password" ∉ toJSONKeys u ∧
    "password" ∉ userJsonKeys (constructUser row) := by
  constructor
  · intro h
    simp only [toJSONKeys, userJsonKeys, List.mem_append, mem_keyIf_iff] at h
    simp at h
  · intro h
    have hpw : rowGet row "password" = none := by
      apply rowGet_eq_none
      intro kv hm hk
      have := hrow kv hm
      rw [hk] at this
      simp [userFindAllColumns] at this
    simp only [userJsonKeys, constructUser, List.mem_append,
      mem_keyIf_iff] at h
    simp [hpw] at h

/-- Witness for C4's amended theorem at a concrete user and a concrete
`findAll` row. -/
theorem user_serialization_password_excluded_witness :
    "password" ∉ toJSONKeys (constructUser
      [("id", .num 1), ("username", .str "bob"),
        ("password", .str "$2b$10$x")]) ∧
    "password" ∉ userJsonKeys (constructUser
      [("id", .num 2), ("username", .str "eve"),
        ("email", .str "e@x.com")]) := by
  have h := user_serialization_password_excluded
    (constructUser [("id", .num 1), ("username", .str "bob"),
      ("password", .str "$2b$10$x")])
    [("id", .num 2), ("username", .str "eve"), ("email", .str "e@x.com")]
    (by decide)
  exact h

/-! ## Login (authController.js 57–97 and legacy userController.js 18–32) -/

/-- A stored user row as login reads it: id, email, stored password hash,
active flag. -/
structure DbUser where
  id : Int
  email : String
  password : String
  isActive : Bool
deriving Repr, DecidableEq

/-- `User.findByEmail`: `SELECT * FROM users WHERE email = $1 AND
is_active = true`, first matching row or `null`. -/
def findByEmail (db : List DbUser) (email : String) : Option DbUser :=
  db.find? (fun u => u.email == email && u.isActive)

/-- An HTTP response abstracted to its status code and message. -/
structure HttpRes where
  status : Nat
  message : String
deriving Repr, DecidableEq

/-- `AuthController.login`: unknown or inactive email → 401 "Invalid
email or password"; known email but failed `comparePassword` → the same
401; success → 200.  `compare` abstracts
`bcrypt.compare(candidate, storedHash)`. -/
def authLogin (db : List DbUser) (compare : String → String → Bool)
    (email password : String) : HttpRes :=
  match findByEmail db email with
  | none => ⟨401, "Invalid email or password"⟩
  | some u =>
    if compare password u.password then ⟨200, "Login successful"⟩
    else ⟨401, "Invalid email or password"⟩

/-- Legacy `loginUser` (userController.js 18–32): unknown email → 404
"User not found"; wrong password → 401 "Invalid credentials"; success →
200 with a bare token payload (no message field, modelled as ""). -/
def legacyLoginUser (db : List DbUser) (compare : String → String → Bool)
    (email password : String) : HttpRes :=
  match findByEmail db email with
  | none => ⟨404, "User not found"⟩
  | some u =>
    if compare password u.password then ⟨200, ""⟩
    else ⟨401, "Invalid credentials"⟩

/-- Counterexample to C5: on the legacy `loginUser` path the two failure
causes are distinguishable — an unknown email yields 404 "User not
found", a wrong password for an existing account yields 401 "Invalid
credentials", and neither is the generic 401 "Invalid email or password". -/
theorem legacyLogin_distinguishes_failures_cex :
    legacyLoginUser [⟨1, "a@x.com", "$2b$10$h", true⟩]
      (fun c h => c == h) "b@x.com" "pw" = ⟨404, "User not found"⟩ ∧
    legacyLoginUser [⟨1, "a@x.com", "$2b$10$h", true⟩]
      (fun c h => c == h) "a@x.com" "pw" = ⟨401, "Invalid credentials"⟩ ∧
    legacyLoginUser [⟨1, "a@x.com", "$2b$10$h", true⟩]
      (fun c h => c == h) "b@x.com" "pw" ≠
      (⟨401, "Invalid email or password"⟩ : HttpRes) := by
  decide

/-- C5 (corrected): on the routed login path (`AuthController.login`),
every failing attempt — no active account for the email, or a password
mismatch — produces the same 401 response with the generic "Invalid email
or password" message, leaving the two causes indistinguishable. -/
theorem authLogin_failures_uniform_401 (db : List DbUser)
    (compare : String → String → Bool) (email password : String)
    (h : (authLogin db compare email password).status ≠ 200) :
    authLogin db compare email password =
      ⟨401, "Invalid email or password"⟩ := by
  unfold authLogin at h ⊢
  cases hf : findByEmail db email with
  | none => rfl
  | some u =>
    by_cases hc : compare password u.password
    · rw [hf] at h
      simp [hc] at h
    · simp [hc]

/-- Witness for C5's amended theorem: a failing login against an empty
user table, and a wrong-password login, both concrete. -/
theorem authLogin_failures_uniform_401_witness :
    authLogin [] (fun c h => c == h) "a@x.com" "pw" =
      ⟨401, "Invalid email or password"⟩ ∧
    authLogin [⟨1, "a@x.com", "$2b$10$h", true⟩] (fun c h => c == h)
      "a@x.com" "wrong" = ⟨401, "Invalid email or password"⟩ :=
  ⟨authLogin_failures_uniform_401 [] (fun c h => c == h) "a@x.com" "pw"
      (by decide),
    authLogin_failures_uniform_401 [⟨1, "a@x.com", "$2b$10$h", true⟩]
      (fun c h => c == h) "a@x.com" "wrong" (by decide)⟩

/-! ## Post update/delete authorization (postController.js 80–153) -/

/-- A stored post as the mutation control flow reads it. -/
structure DbPost where
  id : Int
  authorId : Int
deriving Repr, DecidableEq

/-- `Post.findById` restricted to the fields the mutation handlers use. -/
def findPostById (db : List DbPost) (id : Int) : Option DbPost :=
  db.find? (fun p => p.id == id)

/-- Outcome of a guarded mutation handler. -/
inductive MutationOutcome where
  | notFound (status : Nat) (message : String)
  | forbidden (status : Nat) (message : String)
  | ok
deriving Repr, DecidableEq

/-- `PostController.updatePost` control flow: load the post — absent →
404 "Post not found"; present but `post.authorId !== req.user.id` → 403;
else proceed to the update. -/
def updatePostOutcome (db : List DbPost) (requesterId postId : Int) :
    MutationOutcome :=
  match findPostById db postId with
  | none => .notFound 404 "Post not found"
  | some p =>
    if p.authorId != requesterId then
      .forbidden 403 "You can only update your own posts"
    else .ok

/-- `PostController.deletePost` control flow: same ordering, delete
message. -/
def deletePostOutcome (db : List DbPost) (requesterId postId : Int) :
    MutationOutcome :=
  match findPostById db postId with
  | none => .notFound 404 "Post not found"
  | some p =>
    if p.authorId != requesterId then
      .forbidden 403 "You can only delete your own posts"
    else .ok

/-- C6: for post update and delete, a missing post always yields NotFound
(never Forbidden, the existence check running first), and an existing
post owned by someone else always yields Forbidden. -/
theorem postMutation_notFound_precedes_forbidden (db : List DbPost)
    (requesterId postId : Int) :
    (findPostById db postId = none →
      updatePostOutcome db requesterId postId = .notFound 404 "Post not found" ∧
      deletePostOutcome db requesterId postId = .notFound 404 "Post not found") ∧
    (∀ p, findPostById db postId = some p → p.authorId ≠ requesterId →
      updatePostOutcome db requesterId postId =
        .forbidden 403 "You can only update your own posts" ∧
      deletePostOutcome db requesterId postId =
        .forbidden 403 "You can only delete your own posts") ∧
    (∀ s m, updatePostOutcome db requesterId postId = .forbidden s m ∨
        deletePostOutcome db requesterId postId = .forbidden s m →
      findPostById db postId ≠ none) := by
  refine ⟨?_, ?_, ?_⟩
  · intro hnone
    unfold updatePostOutcome deletePostOutcome
    rw [hnone]
    exact ⟨rfl, rfl⟩
  · intro p hsome hne
    unfold updatePostOutcome deletePostOutcome
    rw [hsome]
    simp [hne]
  · intro s m hf hnone
    unfold updatePostOutcome deletePostOutcome at hf
    rw [hnone] at hf
    rcases hf with hf | hf <;> simp at hf

/-- Witness for C6 at concrete inputs: a store holding post 1 owned by
user 7; requester 9 updating post 1 is Forbidden, and any requester
targeting the absent post 2 gets NotFound. -/
theorem postMutation_notFound_precedes_forbidden_witness :
    updatePostOutcome [⟨1, 7⟩] 9 1 =
      .forbidden 403 "You can only update your own posts" ∧
    deletePostOutcome [⟨1, 7⟩] 9 2 = .notFound 404 "Post not found" := by
  have h1 := (postMutation_notFound_precedes_forbidden [⟨1, 7⟩] 9 1).2.1
    ⟨1, 7⟩ (by decide) (by decide)
  have h2 := (postMutation_notFound_precedes_forbidden [⟨1, 7⟩] 9 2).1
    (by decide)
  exact ⟨h1.1, h2.2⟩

/-! ## UserController.deleteUser (course notes, User Controller section) -/

/-- Strict equality `number === parseInt(id)`: false when `parseInt`
produced `NaN`. -/
def jsStrictEqNum (x : Option Int) (y : Int) : Bool :=
  match x with
  | none => false
  | some n => n == y

/-- PostgreSQL's cast of a text parameter to integer: optional sign and
digits only (surrounding spaces allowed); anything else raises an error,
surfacing as a query failure. -/
def pgCastInt (s : String) : Option Int :=
  let cs := ((s.toList.dropWhile (· = ' ')).reverse.dropWhile (· = ' ')).reverse
  let (neg, rest) :=
    match cs with
    | '-' :: r => (true, r)
    | '+' :: r => (false, r)
    | r => (false, r)
  if rest ≠ [] ∧ rest.all Char.isDigit then
    some (if neg then
      -(rest.foldl (fun acc c => acc * 10 + ((c.toNat - '0'.toNat) : Int)) 0)
    else rest.foldl (fun acc c => acc * 10 + ((c.toNat - '0'.toNat) : Int)) 0)
  else none

/-- `User.findById` with the active-row filter (`WHERE id = $1 AND
is_active = true`). -/
def findUserById (db : List DbUser) (id : Int) : Option DbUser :=
  db.find? (fun u => u.id == id && u.isActive)

/-- Outcome of the admin user-delete handler. -/
inductive DeleteUserOutcome where
  | selfReject (status : Nat) (message : String)
  | notFound (status : Nat) (message : String)
  | deleted (status : Nat) (message : String)
  | queryError
deriving Repr, DecidableEq

/-- `UserController.deleteUser`: the self-deletion guard
`req.user.id === parseInt(id)` fires first; only then is the target
loaded (absent → 404 "User not found") and soft-deleted (→ 200). -/
def deleteUserOutcome (db : List DbUser) (requesterId : Int)
    (idParam : String) : DeleteUserOutcome :=
  if jsStrictEqNum (jsParseInt (some idParam)) requesterId then
    .selfReject 400 "You cannot delete your own account"
  else
    match pgCastInt idParam with
    | none => .queryError
    | some n =>
      match findUserById db n with
      | none => .notFound 404 "User not found"
      | some _ => .deleted 200 "User deleted successfully"

/-- C7: whenever the id parameter parses to the requester's own id, the
delete request is rejected with "You cannot delete your own account",
for every database state — in particular regardless of whether the
target user exists, the guard running before the existence check. -/
theorem deleteUser_self_guard_precedes_existence (db : List DbUser)
    (requesterId : Int) (idParam : String)
    (h : jsParseInt (some idParam) = some requesterId) :
    deleteUserOutcome db requesterId idParam =
      .selfReject 400 "You cannot delete your own account" := by
  unfold deleteUserOutcome
  rw [h]
  simp [jsStrictEqNum]

/-- Witness for C7: requester 5 deleting id "5" against an empty user
table (the target does not exist) is still rejected by the self guard. -/
theorem deleteUser_self_guard_precedes_existence_witness :
    deleteUserOutcome [] 5 "5" =
      .selfReject 400 "You cannot delete your own account" :=
  deleteUser_self_guard_precedes_existence [] 5 "5" (by decide)

/-! ## Post.update / User.update SET-clause construction
(PostModel.js 197–231, UserModel.js 115–149) -/

/-- camelCase → snake_case exactly as the source's
`key.replace(/([A-Z])/g, "_$1").toLowerCase()`: every uppercase letter
becomes an underscore plus itself, then the whole string is lowercased. -/
def camelToSnake (k : String) : String :=
  String.mk
    (((k.toList.map (fun c => if c.isUpper then ['_', c] else [c])).flatten).map
      Char.toLower)

example : camelToSnake "featuredImage" = "featured_image" := by decide

/-- The `forEach` over `Object.keys(updateData)`: for each key whose value
is not `undefined`, push "`dbKey(key)` = $n" onto `fields` and the value
onto `values`; `n` is `paramCount`, starting at 1. -/
def buildSet (dbKey : String → String) :
    List (String × Option JsVal) → Nat → List String × List JsVal
  | [], _ => ([], [])
  | (_, none) :: rest, n => buildSet dbKey rest n
  | (k, some v) :: rest, n =>
    let r := buildSet dbKey rest (n + 1)
    ((dbKey k ++ " = " ++ ph n) :: r.1, v :: r.2)

/-- The provided entries of an update record (`undefined` means the field
was not provided). -/
def provided (ud : List (String × Option JsVal)) : List (String × JsVal) :=
  ud.filterMap (fun kv => kv.2.map (fun v => (kv.1, v)))

/-- Result of an entity `update`: the early `return this` (no statement
issued), or the UPDATE actually executed — its SET fragments in order,
its bound values, and the placeholder number of the WHERE id. -/
inductive UpdateResult (α : Type) where
  | noop (current : α)
  | exec (setFields : List String) (values : List JsVal) (wherePh : Nat)
deriving Repr, DecidableEq

/-- `Post.update`: keys are translated camelCase→snake_case; if no field
was provided, return `this` unchanged; otherwise append
`updated_at = CURRENT_TIMESTAMP` to the SET list, append the id for the
WHERE placeholder (`paramCount`, one past the provided fields), and run
the UPDATE. -/
def postUpdate {α : Type} (self : α) (id : Int)
    (updateData : List (String × Option JsVal)) : UpdateResult α :=
  let r := buildSet camelToSnake updateData 1
  if r.1.length = 0 then .noop self
  else
    .exec (r.1 ++ ["updated_at = CURRENT_TIMESTAMP"]) (r.2 ++ [.num id])
      (r.1.length + 1)

/-- `User.update`: identical accumulation except the keys are used as
column names untranslated. -/
def userUpdate {α : Type} (self : α) (id : Int)
    (updateData : List (String × Option JsVal)) : UpdateResult α :=
  let r := buildSet (fun k => k) updateData 1
  if r.1.length = 0 then .noop self
  else
    .exec (r.1 ++ ["updated_at = CURRENT_TIMESTAMP"]) (r.2 ++ [.num id])
      (r.1.length + 1)

lemma buildSet_spec (dbKey : String → String)
    (ud : List (String × Option JsVal)) (n : Nat) :
    buildSet dbKey ud n =
      ((List.enumFrom n (provided ud)).map
        (fun p => dbKey p.2.1 ++ " = " ++ ph p.1),
        (provided ud).map Prod.snd) := by
  induction ud generalizing n with
  | nil => rfl
  | cons kv rest ih =>
    obtain ⟨k, v⟩ := kv
    cases v with
    | none =>
      rw [show provided ((k, none) :: rest) = provided rest from rfl]
      exact ih n
    | some x =>
      rw [show provided ((k, some x) :: rest) = (k, x) :: provided rest
        from rfl]
      rw [show buildSet dbKey ((k, some x) :: rest) n =
        ((dbKey k ++ " = " ++ ph n) :: (buildSet dbKey rest (n + 1)).1,
          x :: (buildSet dbKey rest (n + 1)).2) from rfl]
      rw [ih (n + 1)]
      rfl

lemma provided_eq_nil {ud : List (String × Option JsVal)}
    (h : ∀ kv ∈ ud, kv.2 = none) : provided ud = [] := by
  unfold provided
  rw [List.filterMap_eq_nil_iff]
  intro kv hm
  rw [h kv hm]
  rfl

/-- C9: for both entities, an update call in which no field is provided
(the record is empty or every value is `undefined`) is a no-op returning
the current instance, issuing no (malformed empty-SET) statement at all;
when some fields are provided, the SET clause covers exactly those
fields, in order and with consecutive placeholders from `$1`, followed by
the `updated_at` refresh, and the bound values are exactly the provided
values followed by the id. -/
theorem update_noop_and_exact_set_clause (α : Type) (self : α) (id : Int)
    (ud : List (String × Option JsVal)) :
    ((∀ kv ∈ ud, kv.2 = none) →
      postUpdate self id ud = .noop self ∧
      userUpdate self id ud = .noop self) ∧
    (provided ud ≠ [] →
      postUpdate self id ud = .exec
        ((List.enumFrom 1 (provided ud)).map
          (fun p => camelToSnake p.2.1 ++ " = " ++ ph p.1) ++
          ["updated_at = CURRENT_TIMESTAMP"])
        ((provided ud).map Prod.snd ++ [.num id])
        ((provided ud).length + 1) ∧
      userUpdate self id ud = .exec
        ((List.enumFrom 1 (provided ud)).map
          (fun p => p.2.1 ++ " = " ++ ph p.1) ++
          ["updated_at = CURRENT_TIMESTAMP"])
        ((provided ud).map Prod.snd ++ [.num id])
        ((provided ud).length + 1)) := by
  constructor
  · intro h
    have hnil := provided_eq_nil h
    unfold postUpdate userUpdate
    rw [buildSet_spec, buildSet_spec, hnil]
    exact ⟨rfl, rfl⟩
  · intro h
    have hlen : (provided ud).length ≠ 0 := by
      intro hl
      exact h (List.eq_nil_of_length_eq_zero hl)
    unfold postUpdate userUpdate
    rw [buildSet_spec, buildSet_spec]
    simp [hlen]

/-- Witness for C9: one provided field plus one `undefined` field yields
the exact two-fragment SET clause; an all-`undefined` record is a no-op. -/
theorem update_noop_and_exact_set_clause_witness :
    postUpdate "post" 3
      [("title", some (.str "T")), ("featuredImage", none)] =
      .exec ["title = $1", "updated_at = CURRENT_TIMESTAMP"]
        [.str "T", .num 3] 2 ∧
    userUpdate "user" 4 [("first_name", none)] = .noop "user" := by
  have h1 := (update_noop_and_exact_set_clause String "post" 3
    [("title", some (.str "T")), ("featuredImage", none)]).2 (by decide)
  have h2 := (update_noop_and_exact_set_clause String "user" 4
    [("first_name", none)]).1 (by decide)
  exact ⟨h1.1, h2.2⟩

/-! ## PostController.updatePost field gathering (postController.js
101–111) and Post.generateSlug (PostModel.js 246–252) -/

/-- One pass of `replace(/ +/g, "-")`: each run of spaces becomes a
single dash; the flag records whether the previous character belonged to
a space run. -/
def collapseSpaceRuns : List Char → Bool → List Char
  | [], _ => []
  | c :: rest, prevSpace =>
    if c = ' ' then
      if prevSpace then collapseSpaceRuns rest true
      else '-' :: collapseSpaceRuns rest true
    else c :: collapseSpaceRuns rest false

/-- `Post.generateSlug`: lowercase, drop characters that are neither
word-characters (`[A-Za-z0-9_]`) nor spaces, replace space runs by single
dashes, trim leading and trailing dashes. -/
def generateSlug (title : String) : String :=
  let lowered := title.toList.map Char.toLower
  let kept := lowered.filter (fun c => c.isAlphanum || c = '_' || c = ' ')
  let dashed := collapseSpaceRuns kept false
  String.mk (((dashed.dropWhile (· = '-')).reverse.dropWhile (· = '-')).reverse)

example : generateSlug "Hello, World!" = "hello-world" := by decide

/-- String coercion as `generateSlug` would receive its argument; for the
string-valued titles the API accepts this is the identity. -/
def jsToString : JsVal → String
  | .str s => s
  | .num n => toString n
  | .bool b => if b then "true" else "false"
  | .null => "null"
  | .jsUndefined => "undefined"
  | .arr xs => String.intercalate "," xs

/-- The request-body fields read by `PostController.updatePost`. -/
structure PostUpdateBody where
  title : JsVal
  content : JsVal
  status : JsVal
  featuredImage : JsVal
  tags : JsVal
deriving Repr, DecidableEq

/-- The `updateData` object assembled by `PostController.updatePost`: a
field is added only when its submitted value is truthy; a truthy title
additionally regenerates the slug as
`Post.generateSlug(title) + "-" + Date.now()` (`now` abstracts
`Date.now()`). Keys appear in insertion order. -/
def buildUpdateData (b : PostUpdateBody) (now : Nat) :
    List (String × JsVal) :=
  (if truthy b.title then
    [("title", b.title),
      ("slug", .str (generateSlug (jsToString b.title) ++ "-" ++
        toString now))]
  else []) ++
  (if truthy b.content then [("content", b.content)] else []) ++
  (if truthy b.status then [("status", b.status)] else []) ++
  (if truthy b.featuredImage then [("featuredImage", b.featuredImage)]
    else []) ++
  (if truthy b.tags then [("tags", b.tags)] else [])

/-- C10: any field submitted with a falsy value (`undefined`, `null`,
`false`, `0`, the empty string) is left out of `updateData` entirely — so
the update leaves the stored column unchanged — while a truthy title is
included together with a freshly generated slug. -/
theorem updatePost_falsy_not_provided_slug_regenerated
    (b : PostUpdateBody) (now : Nat) :
    (truthy b.title = false →
      "title" ∉ (buildUpdateData b now).map Prod.fst ∧
      "slug" ∉ (buildUpdateData b now).map Prod.fst) ∧
    (truthy b.content = false →
      "content" ∉ (buildUpdateData b now).map Prod.fst) ∧
    (truthy b.status = false →
      "status" ∉ (buildUpdateData b now).map Prod.fst) ∧
    (truthy b.featuredImage = false →
      "featuredImage" ∉ (buildUpdateData b now).map Prod.fst) ∧
    (truthy b.tags = false →
      "tags" ∉ (buildUpdateData b now).map Prod.fst) ∧
    (truthy b.title = true →
      ("title", b.title) ∈ buildUpdateData b now ∧
      ("slug", .str (generateSlug (jsToString b.title) ++ "-" ++
        toString now)) ∈ buildUpdateData b now) := by
  cases h1 : truthy b.title <;> cases h2 : truthy b.content <;>
    cases h3 : truthy b.status <;> cases h4 : truthy b.featuredImage <;>
    cases h5 : truthy b.tags <;>
    refine ⟨?_, ?_, ?_, ?_, ?_, ?_⟩ <;> intro h <;>
    simp_all [buildUpdateData]

/-- Witness for C10: title "New Title" with every other field submitted
falsy — content empty string, status null, featured image 0, tags false. -/
theorem updatePost_falsy_not_provided_slug_regenerated_witness :
    ("slug", JsVal.str (generateSlug (jsToString (.str "New Title")) ++
      "-" ++ toString 7)) ∈
      buildUpdateData ⟨.str "New Title", .str "", .null, .num 0, .bool false⟩ 7 ∧
    "content" ∉
      (buildUpdateData
        ⟨.str "New Title", .str "", .null, .num 0, .bool false⟩ 7).map
        Prod.fst := by
  have h := updatePost_falsy_not_provided_slug_regenerated
    ⟨.str "New Title", .str "", .null, .num 0, .bool false⟩ 7
  exact ⟨(h.2.2.2.2.2 (by decide)).2, h.2.1 (by decide)⟩

end RestApi
